import Mathlib

/-
Verification of the `floah::Grid` layout container
(src/include/floah/elements/grid.h).

Only the class declaration is available in the repository sources; the
member-function bodies live in a translation unit that is not part of the
source tree.  The data model (default member initializers, the row-major
`children` vector, `rowCount`, `columnCount`, the alignment members) and the
`insert` template are taken directly from the header; every operation whose
body is missing is modelled from the specification's description of it, and
its doc comment says so.

Machine integers (`size_t`) are modelled as `Nat`: all quantities involved
are small counts and indices, and the spec never relies on wrap-around.
Owning pointers (`ElementPtr`, i.e. `std::unique_ptr<Element>`) are modelled
as `Option Elem`: an occupied or empty slot.  Failure (out-of-bounds and the
null-element assertion, §7 of the spec) is modelled with `Except`.
-/

namespace Floah

/-- Modelled from the spec: the horizontal alignment enumeration from
`floah/properties/alignment.h` (not in the source tree); the header only
uses `HorizontalAlignment::Left`.  The values are opaque to the grid. -/
inductive HorizontalAlignment
  | Left
  | Center
  | Right
deriving DecidableEq, Repr

/-- Modelled from the spec: the vertical alignment enumeration from
`floah/properties/alignment.h` (not in the source tree); the header only
uses `VerticalAlignment::Top`.  The values are opaque to the grid. -/
inductive VerticalAlignment
  | Top
  | Middle
  | Bottom
deriving DecidableEq, Repr

/-- Modelled from the spec: a child element (the opaque `Element`
collaborator).  `id` stands for the element object's identity (which heap
object it is) and `val` for its observable content; cloning copies the
content into a fresh object, so it preserves `val` and changes `id`. -/
structure Elem where
  id : Nat
  val : Nat
deriving DecidableEq, Repr

/-- Errors of the fail-fast error policy (spec §7): out-of-bounds indices
and the null-element precondition of `Grid::insert`. -/
inductive GridError
  | outOfBounds
  | nullElem
deriving DecidableEq, Repr

/-- The `Grid` state: the private members of `floah::Grid` with their
default member initializers from the header (grid.h lines 198-221).
`children` is the row-major list of child slots: the slot for `(x, y)` is
at index `y * columnCount + x`. -/
structure Grid where
  horAlign : HorizontalAlignment := HorizontalAlignment.Left
  verAlign : VerticalAlignment := VerticalAlignment.Top
  rowCount : Nat := 0
  columnCount : Nat := 0
  children : List (Option Elem) := []
deriving DecidableEq, Repr

/-- A default-constructed grid: every member takes its default member
initializer from the header (the declared constructor body is not in the
source tree and the spec says a grid is constructed empty). -/
def Grid.mkDefault : Grid := {}

/-- The store-size invariant, spec §3 invariant 1:
`children.length == rowCount * columnCount`. -/
def Grid.sizeInv (g : Grid) : Prop :=
  g.children.length = g.rowCount * g.columnCount

instance (g : Grid) : Decidable g.sizeInv := by
  unfold Grid.sizeInv; infer_instance

/-- Split the row-major store into its `r` rows of `cc` slots each (the
per-row view the column operations work on). -/
def splitRows : Nat → Nat → List (Option Elem) → List (List (Option Elem))
  | 0, _, _ => []
  | r + 1, cc, l => l.take cc :: splitRows r cc (l.drop cc)

/-- Modelled from the spec: `Grid::appendRow` (body not in the source
tree) — "Add an empty row to the end": grow `rowCount` by 1 and extend the
store with `columnCount` empty slots at the end. -/
def Grid.appendRow (g : Grid) : Grid :=
  { g with
    rowCount := g.rowCount + 1
    children := g.children ++ List.replicate g.columnCount none }

/-- Modelled from the spec: `Grid::appendColumn` (body not in the source
tree) — "Add an empty column to the end": grow `columnCount` by 1 and
insert one empty slot after each row's last element. -/
def Grid.appendColumn (g : Grid) : Grid :=
  { g with
    columnCount := g.columnCount + 1
    children :=
      ((splitRows g.rowCount g.columnCount g.children).map
        (fun row => row ++ [none])).flatten }

/-- Modelled from the spec: `Grid::insertRow` (body not in the source
tree) — insert an empty row at `y`, `0 ≤ y ≤ rowCount`; all elements with
row-index ≥ y are shifted down.  Out-of-range `y` is an out-of-bounds
error (spec §7). -/
def Grid.insertRow (g : Grid) (y : Nat) : Except GridError Grid :=
  if y ≤ g.rowCount then
    Except.ok
      { g with
        rowCount := g.rowCount + 1
        children :=
          g.children.take (y * g.columnCount)
            ++ List.replicate g.columnCount none
            ++ g.children.drop (y * g.columnCount) }
  else Except.error GridError.outOfBounds

/-- Modelled from the spec: `Grid::insertColumn` (body not in the source
tree) — insert an empty column at `x`, `0 ≤ x ≤ columnCount`; all elements
with column-index ≥ x are shifted right.  Out-of-range `x` is an
out-of-bounds error (spec §7). -/
def Grid.insertColumn (g : Grid) (x : Nat) : Except GridError Grid :=
  if x ≤ g.columnCount then
    Except.ok
      { g with
        columnCount := g.columnCount + 1
        children :=
          ((splitRows g.rowCount g.columnCount g.children).map
            (fun row => row.take x ++ none :: row.drop x)).flatten }
  else Except.error GridError.outOfBounds

/-- Modelled from the spec: `Grid::removeRow` (body not in the source
tree) — remove row `y`, `0 ≤ y < rowCount`, destroying its elements; all
elements with row-index > y are shifted up.  Invalid `y` is an
out-of-bounds error (spec §4.2). -/
def Grid.removeRow (g : Grid) (y : Nat) : Except GridError Grid :=
  if y < g.rowCount then
    Except.ok
      { g with
        rowCount := g.rowCount - 1
        children :=
          g.children.take (y * g.columnCount)
            ++ g.children.drop ((y + 1) * g.columnCount) }
  else Except.error GridError.outOfBounds

/-- Modelled from the spec: `Grid::removeColumn` (body not in the source
tree) — remove column `x`, `0 ≤ x < columnCount`, destroying its elements;
all elements with column-index > x are shifted left.  Invalid `x` is an
out-of-bounds error (spec §4.2). -/
def Grid.removeColumn (g : Grid) (x : Nat) : Except GridError Grid :=
  if x < g.columnCount then
    Except.ok
      { g with
        columnCount := g.columnCount - 1
        children :=
          ((splitRows g.rowCount g.columnCount g.children).map
            (fun row => row.take x ++ row.drop (x + 1))).flatten }
  else Except.error GridError.outOfBounds

/-- Modelled from the spec: `Grid::removeAllRowsAndColumns` (body not in
the source tree) — destroy all owned elements, reset both counts to 0,
empty the store. -/
def Grid.removeAllRowsAndColumns (g : Grid) : Grid :=
  { g with rowCount := 0, columnCount := 0, children := [] }

/-- The raw row-major slot lookup: the content of slot `(x, y)`
(`children[y * columnCount + x]`), empty when the index is outside the
store. -/
def Grid.slot (g : Grid) (x y : Nat) : Option Elem :=
  g.children.getD (y * g.columnCount + x) none

/-- Modelled from the spec: `Grid::get` (body not in the source tree) —
return the element at `(x, y)` or null when the slot is empty; an
out-of-bounds index is an error (spec §4.1). -/
def Grid.get (g : Grid) (x y : Nat) : Except GridError (Option Elem) :=
  if x < g.columnCount ∧ y < g.rowCount then Except.ok (g.slot x y)
  else Except.error GridError.outOfBounds

/-- Modelled from the spec: `Grid::insertImpl` (body not in the source
tree) — store `elem` at `(x, y)`, replacing any existing element; fails
with an out-of-bounds error (leaving the grid unchanged and the element
unconsumed) when `x ≥ columnCount` or `y ≥ rowCount` (spec §4.3). -/
def Grid.insertImpl (g : Grid) (e : Elem) (x y : Nat) : Except GridError Grid :=
  if x < g.columnCount ∧ y < g.rowCount then
    Except.ok { g with children := g.children.set (y * g.columnCount + x) (some e) }
  else Except.error GridError.outOfBounds

/-- `Grid::insert` from the header (grid.h lines 171-178): asserts the
element is non-null (`assert(elem)`), keeps a reference to it, delegates
to `insertImpl`, and returns the reference.  The returned pair is the
mutated grid together with the returned element reference. -/
def Grid.insert (g : Grid) (elem : Option Elem) (x y : Nat) :
    Except GridError (Grid × Elem) :=
  match elem with
  | none => Except.error GridError.nullElem
  | some e => (g.insertImpl e x y).map (fun g2 => (g2, e))

/-- Modelled from the spec: `Grid::extract` (body not in the source
tree) — remove the element at `(x, y)` and return ownership of it (null
when the slot was empty), clearing the slot; out-of-bounds indices are an
error (spec §4.3). -/
def Grid.extract (g : Grid) (x y : Nat) :
    Except GridError (Option Elem × Grid) :=
  if x < g.columnCount ∧ y < g.rowCount then
    Except.ok
      (g.slot x y,
        { g with children := g.children.set (y * g.columnCount + x) none })
  else Except.error GridError.outOfBounds

/-- Modelled from the spec: `Grid::clone` (body not in the source tree) —
a fully independent deep copy: same shape and alignment, every occupied
slot holding an independently-cloned child.  `fresh` stands for the fresh
heap identities of the newly allocated clones: the clone of the child at
store index `k` is a new object `fresh + k` with the same content.
(Parent/layout re-wiring concerns the external `Element`/`Layout`
collaborators, out of scope per spec §1.) -/
def Grid.clone (g : Grid) (fresh : Nat) : Grid :=
  { g with
    children :=
      (List.range g.children.length).map
        (fun k => (g.children.getD k none).map (fun e => ⟨fresh + k, e.val⟩)) }

/-- The shape operations of spec §8's first testable property. -/
inductive ShapeOp
  | appendRow
  | appendColumn
  | insertRow (y : Nat)
  | insertColumn (x : Nat)
  | removeRow (y : Nat)
  | removeColumn (x : Nat)
deriving DecidableEq, Repr

/-- Apply one shape operation; index-checked operations propagate their
out-of-bounds failure. -/
def Grid.applyShapeOp (g : Grid) : ShapeOp → Except GridError Grid
  | ShapeOp.appendRow => Except.ok g.appendRow
  | ShapeOp.appendColumn => Except.ok g.appendColumn
  | ShapeOp.insertRow y => g.insertRow y
  | ShapeOp.insertColumn x => g.insertColumn x
  | ShapeOp.removeRow y => g.removeRow y
  | ShapeOp.removeColumn x => g.removeColumn x

/-- Run a sequence of shape operations, stopping at the first failure.  A
sequence is valid for a starting grid exactly when this returns `ok`. -/
def Grid.runShapeOps (g : Grid) : List ShapeOp → Except GridError Grid
  | [] => Except.ok g
  | op :: ops => (g.applyShapeOp op).bind (fun g2 => g2.runShapeOps ops)

/-- If a per-row rewrite turns every row of length `cc` into a row of
length `m`, the whole rewritten store of an `r × cc` grid has length
`r * m`. -/
theorem length_flatten_map_splitRows (cc m : Nat)
    (f : List (Option Elem) → List (Option Elem))
    (hf : ∀ row : List (Option Elem), row.length = cc → (f row).length = m) :
    ∀ (r : Nat) (l : List (Option Elem)), l.length = r * cc →
      (((splitRows r cc l).map f).flatten).length = r * m := by
  intro r
  induction r with
  | zero => intro l hl; simp [splitRows]
  | succ n ih =>
    intro l hl
    have hcc : cc ≤ l.length := by
      rw [hl, Nat.succ_mul]; omega
    have htake : (l.take cc).length = cc := by
      rw [List.length_take]; omega
    have hdrop : (l.drop cc).length = n * cc := by
      rw [List.length_drop, hl, Nat.succ_mul]; omega
    simp only [splitRows, List.map_cons, List.flatten_cons, List.length_append]
    rw [hf _ htake, ih _ hdrop, Nat.succ_mul, Nat.add_comm]

theorem sizeInv_appendRow {g : Grid} (h : g.sizeInv) : g.appendRow.sizeInv := by
  unfold Grid.sizeInv Grid.appendRow at *
  simp only [List.length_append, List.length_replicate]
  rw [h, Nat.succ_mul]

theorem sizeInv_appendColumn {g : Grid} (h : g.sizeInv) : g.appendColumn.sizeInv := by
  unfold Grid.sizeInv Grid.appendColumn at *
  exact length_flatten_map_splitRows g.columnCount (g.columnCount + 1) _
    (fun row hrow => by simp [hrow]) g.rowCount g.children h

theorem sizeInv_insertRow {g g2 : Grid} {y : Nat}
    (h : g.sizeInv) (hok : g.insertRow y = Except.ok g2) : g2.sizeInv := by
  unfold Grid.insertRow at hok
  split at hok
  · cases hok
    rename_i hy
    unfold Grid.sizeInv at h ⊢
    simp only [List.length_append, List.length_take, List.length_replicate,
      List.length_drop]
    have hle : y * g.columnCount ≤ g.rowCount * g.columnCount :=
      Nat.mul_le_mul_right _ hy
    rw [Nat.succ_mul]
    revert h hle
    generalize y * g.columnCount = a
    generalize g.rowCount * g.columnCount = b
    intro h hle
    omega
  · cases hok

theorem sizeInv_insertColumn {g g2 : Grid} {x : Nat}
    (h : g.sizeInv) (hok : g.insertColumn x = Except.ok g2) : g2.sizeInv := by
  unfold Grid.insertColumn at hok
  split at hok
  · cases hok
    rename_i hx
    unfold Grid.sizeInv at h ⊢
    exact length_flatten_map_splitRows g.columnCount (g.columnCount + 1) _
      (fun row hrow => by
        simp only [List.length_append, List.length_take, List.length_cons,
          List.length_drop, hrow]
        omega) g.rowCount g.children h
  · cases hok

theorem sizeInv_removeRow {g g2 : Grid} {y : Nat}
    (h : g.sizeInv) (hok : g.removeRow y = Except.ok g2) : g2.sizeInv := by
  unfold Grid.removeRow at hok
  split at hok
  · cases hok
    rename_i hy
    unfold Grid.sizeInv at h ⊢
    simp only [List.length_append, List.length_take, List.length_drop]
    have hle : (y + 1) * g.columnCount ≤ g.rowCount * g.columnCount :=
      Nat.mul_le_mul_right _ hy
    have hsub : (g.rowCount - 1) * g.columnCount
        = g.rowCount * g.columnCount - g.columnCount := by
      rw [Nat.sub_mul, Nat.one_mul]
    have hsucc : (y + 1) * g.columnCount = y * g.columnCount + g.columnCount :=
      Nat.succ_mul y g.columnCount
    rw [h, hsub, hsucc]
    rw [hsucc] at hle
    revert hle
    generalize y * g.columnCount = a
    generalize g.rowCount * g.columnCount = b
    intro hle
    omega
  · cases hok

theorem sizeInv_removeColumn {g g2 : Grid} {x : Nat}
    (h : g.sizeInv) (hok : g.removeColumn x = Except.ok g2) : g2.sizeInv := by
  unfold Grid.removeColumn at hok
  split at hok
  · cases hok
    rename_i hx
    unfold Grid.sizeInv at h ⊢
    exact length_flatten_map_splitRows g.columnCount (g.columnCount - 1) _
      (fun row hrow => by
        simp only [List.length_append, List.length_take, List.length_drop, hrow]
        omega) g.rowCount g.children h
  · cases hok

theorem sizeInv_applyShapeOp {g g2 : Grid} {op : ShapeOp}
    (h : g.sizeInv) (hok : g.applyShapeOp op = Except.ok g2) : g2.sizeInv := by
  cases op with
  | appendRow =>
    unfold Grid.applyShapeOp at hok; cases hok; exact sizeInv_appendRow h
  | appendColumn =>
    unfold Grid.applyShapeOp at hok; cases hok; exact sizeInv_appendColumn h
  | insertRow y =>
    exact sizeInv_insertRow h hok
  | insertColumn x =>
    exact sizeInv_insertColumn h hok
  | removeRow y =>
    exact sizeInv_removeRow h hok
  | removeColumn x =>
    exact sizeInv_removeColumn h hok

theorem sizeInv_runShapeOps : ∀ (ops : List ShapeOp) (g g2 : Grid),
    g.sizeInv → g.runShapeOps ops = Except.ok g2 → g2.sizeInv := by
  intro ops
  induction ops with
  | nil =>
    intro g g2 h hok
    unfold Grid.runShapeOps at hok
    cases hok
    exact h
  | cons op ops ih =>
    intro g g2 h hok
    unfold Grid.runShapeOps at hok
    cases hmid : g.applyShapeOp op with
    | error e =>
      rw [hmid] at hok
      simp only [Except.bind] at hok
      cases hok
    | ok gmid =>
      rw [hmid] at hok
      simp only [Except.bind] at hok
      exact ih gmid g2 (sizeInv_applyShapeOp h hmid) hok

/-- The row-major index of an in-bounds slot is inside the store. -/
theorem slot_index_lt {x y cc r : Nat} (hx : x < cc) (hy : y < r) :
    y * cc + x < r * cc := by
  have h1 : y * cc + x < (y + 1) * cc := by rw [Nat.succ_mul]; omega
  exact Nat.lt_of_lt_of_le h1 (Nat.mul_le_mul_right _ hy)

/-- A concrete 2-column × 2-row grid, built by the public operations. -/
def grid22 : Grid := Grid.mkDefault.appendRow.appendRow.appendColumn.appendColumn

/-- C1: for every finite sequence of shape operations applied with valid
indices (i.e. every step succeeds) starting from the empty grid, the
invariant `children.length == rowCount * columnCount` holds after every
step — that is, after every prefix of the sequence that runs to
completion. -/
theorem grid_size_invariant (ops : List ShapeOp) (n : Nat) (g : Grid)
    (h : Grid.mkDefault.runShapeOps (ops.take n) = Except.ok g) :
    g.children.length = g.rowCount * g.columnCount :=
  sizeInv_runShapeOps (ops.take n) Grid.mkDefault g (by decide) h

/-- C1 witness: the invariant after a concrete 4-step valid sequence from
the empty grid. -/
theorem grid_size_invariant_witness :
    Grid.mkDefault.runShapeOps
        ([ShapeOp.appendRow, ShapeOp.appendColumn,
          ShapeOp.insertRow 0, ShapeOp.removeColumn 0].take 4)
      = Except.ok ⟨HorizontalAlignment.Left, VerticalAlignment.Top, 2, 0, []⟩
    ∧ (⟨HorizontalAlignment.Left, VerticalAlignment.Top, 2, 0, []⟩ : Grid).children.length
      = (⟨HorizontalAlignment.Left, VerticalAlignment.Top, 2, 0, []⟩ : Grid).rowCount
        * (⟨HorizontalAlignment.Left, VerticalAlignment.Top, 2, 0, []⟩ : Grid).columnCount :=
  ⟨rfl, grid_size_invariant
    [ShapeOp.appendRow, ShapeOp.appendColumn, ShapeOp.insertRow 0, ShapeOp.removeColumn 0]
    4 _ rfl⟩

/-- C2: for every grid and in-bounds position `(x, y)`, inserting an
element there makes `get (x, y)` return that same element; a subsequent
`extract (x, y)` returns that element and leaves the slot empty, so
`get (x, y)` then returns null. -/
theorem insert_get_extract (g : Grid) (e : Elem) (x y : Nat)
    (hinv : g.sizeInv) (hx : x < g.columnCount) (hy : y < g.rowCount) :
    ∃ g1 g2 : Grid,
      g.insert (some e) x y = Except.ok (g1, e)
      ∧ g1.get x y = Except.ok (some e)
      ∧ g1.extract x y = Except.ok (some e, g2)
      ∧ g2.get x y = Except.ok none := by
  have hidx : y * g.columnCount + x < g.children.length := by
    rw [hinv]; exact slot_index_lt hx hy
  refine
    ⟨{ g with children := g.children.set (y * g.columnCount + x) (some e) },
      { g with children := ((g.children.set (y * g.columnCount + x) (some e)).set (y * g.columnCount + x) none) },
      ?_, ?_, ?_, ?_⟩
  · simp [Grid.insert, Grid.insertImpl, hx, hy, Except.map]
  · simp [Grid.get, Grid.slot, hx, hy, List.getElem?_set_self, List.length_set, hidx]
  · simp [Grid.extract, Grid.slot, hx, hy, List.getElem?_set_self, List.length_set, hidx]
  · simp [Grid.get, Grid.slot, hx, hy, List.set_set, List.getElem?_set_self,
      List.length_set, hidx]

/-- C2 witness: insert, get and extract at `(1, 0)` of a concrete 2 × 2
grid. -/
theorem insert_get_extract_witness :
    ∃ g1 g2 : Grid,
      grid22.insert (some ⟨5, 50⟩) 1 0 = Except.ok (g1, ⟨5, 50⟩)
      ∧ g1.get 1 0 = Except.ok (some ⟨5, 50⟩)
      ∧ g1.extract 1 0 = Except.ok (some ⟨5, 50⟩, g2)
      ∧ g2.get 1 0 = Except.ok none :=
  insert_get_extract grid22 ⟨5, 50⟩ 1 0 (by decide) (by decide) (by decide)

/-- C4: `insert` with `x ≥ columnCount` or `y ≥ rowCount` fails with an
out-of-bounds error; no new grid state is produced (the grid is unchanged)
and the element is returned to the caller inside no result, i.e. not
consumed. -/
theorem insert_out_of_bounds (g : Grid) (e : Elem) (x y : Nat)
    (h : g.columnCount ≤ x ∨ g.rowCount ≤ y) :
    g.insert (some e) x y = Except.error GridError.outOfBounds := by
  have hc : ¬(x < g.columnCount ∧ y < g.rowCount) := by omega
  simp [Grid.insert, Grid.insertImpl, hc, Except.map]

/-- C4 witness: inserting at column 5 of a concrete 2 × 2 grid fails with
an out-of-bounds error. -/
theorem insert_out_of_bounds_witness :
    grid22.insert (some ⟨7, 70⟩) 5 0 = Except.error GridError.outOfBounds :=
  insert_out_of_bounds grid22 ⟨7, 70⟩ 5 0 (Or.inl (by decide))

/-- C9: under the precondition that the supplied element is non-null, the
`assert(elem)` in `Grid::insert` holds and the null-element failure branch
is unreachable: `insert` never reports the null-element error. -/
theorem insert_nonnull_no_null_error (g : Grid) (elem : Option Elem) (x y : Nat)
    (h : elem.isSome) : g.insert elem x y ≠ Except.error GridError.nullElem := by
  cases elem with
  | none => simp at h
  | some e =>
    intro hc
    have hc2 : (g.insertImpl e x y).map (fun g2 => (g2, e))
        = Except.error GridError.nullElem := hc
    unfold Grid.insertImpl at hc2
    split at hc2
    · simp [Except.map] at hc2
    · simp only [Except.map] at hc2
      injection hc2 with h2
      cases h2

/-- C9 witness: a non-null insert on a concrete 2 × 2 grid does not report
the null-element error. -/
theorem insert_nonnull_no_null_error_witness :
    grid22.insert (some ⟨3, 30⟩) 0 0 ≠ Except.error GridError.nullElem :=
  insert_nonnull_no_null_error grid22 (some ⟨3, 30⟩) 0 0 (by decide)

/-- C8: `removeAllRowsAndColumns` leaves any grid with both counts 0, an
empty store, and no retrievable element: `get` fails out-of-bounds at
every position. -/
theorem removeAll_spec (g : Grid) :
    (g.removeAllRowsAndColumns).rowCount = 0
    ∧ (g.removeAllRowsAndColumns).columnCount = 0
    ∧ (g.removeAllRowsAndColumns).children = []
    ∧ ∀ x y : Nat,
        (g.removeAllRowsAndColumns).get x y = Except.error GridError.outOfBounds := by
  refine ⟨rfl, rfl, rfl, ?_⟩
  intro x y
  simp [Grid.get, Grid.removeAllRowsAndColumns]

/-- C10: a default-constructed grid starts with `Left` horizontal
alignment, `Top` vertical alignment, zero rows and columns, and an empty
store — the default member initializers of the header. -/
theorem default_grid_init :
    Grid.mkDefault.horAlign = HorizontalAlignment.Left
    ∧ Grid.mkDefault.verAlign = VerticalAlignment.Top
    ∧ Grid.mkDefault.rowCount = 0
    ∧ Grid.mkDefault.columnCount = 0
    ∧ Grid.mkDefault.children = [] :=
  ⟨rfl, rfl, rfl, rfl, rfl⟩

/-- Every row produced by `splitRows` is a `take cc`, so its length is at
most `cc`. -/
theorem length_le_of_mem_splitRows {cc : Nat} :
    ∀ {r : Nat} {l row : List (Option Elem)},
      row ∈ splitRows r cc l → row.length ≤ cc := by
  intro r
  induction r with
  | zero =>
    intro l row hmem
    simp [splitRows] at hmem
  | succ n ih =>
    intro l row hmem
    simp only [splitRows, List.mem_cons] at hmem
    rcases hmem with h | h
    · rw [h, List.length_take]; omega
    · exact ih h

/-- C5: on an invariant-respecting grid, inserting a row at index
`rowCount` produces exactly the `appendRow` result, and inserting a column
at index `columnCount` produces exactly the `appendColumn` result. -/
theorem insert_at_count_eq_append (g : Grid) (hinv : g.sizeInv) :
    g.insertRow g.rowCount = Except.ok g.appendRow
    ∧ g.insertColumn g.columnCount = Except.ok g.appendColumn := by
  have ht : g.children.take (g.rowCount * g.columnCount) = g.children :=
    List.take_of_length_le (Nat.le_of_eq hinv)
  have hd : g.children.drop (g.rowCount * g.columnCount) = [] :=
    List.drop_eq_nil_of_le (Nat.le_of_eq hinv)
  constructor
  · unfold Grid.insertRow Grid.appendRow
    rw [if_pos (Nat.le_refl _), ht, hd, List.append_nil]
  · unfold Grid.insertColumn Grid.appendColumn
    have hmap : (splitRows g.rowCount g.columnCount g.children).map
          (fun row => row.take g.columnCount ++ none :: row.drop g.columnCount)
        = (splitRows g.rowCount g.columnCount g.children).map
          (fun row => row ++ [none]) :=
      List.map_congr_left (fun row hrow => by
        have hle := length_le_of_mem_splitRows hrow
        rw [List.take_of_length_le hle, List.drop_eq_nil_of_le hle])
    rw [if_pos (Nat.le_refl _), hmap]

/-- C3: `removeRow y` with `y < rowCount` decrements `rowCount`, keeps
`columnCount`, leaves every slot with row index below `y` at its original
coordinate, and moves every slot whose row index was above `y` up by one —
so row `y`'s elements are exactly the ones no longer present. -/
theorem removeRow_spec (g : Grid) (y : Nat) (hinv : g.sizeInv) (hy : y < g.rowCount) :
    ∃ g2 : Grid,
      g.removeRow y = Except.ok g2
      ∧ g2.rowCount = g.rowCount - 1
      ∧ g2.columnCount = g.columnCount
      ∧ (∀ x y2 : Nat, x < g.columnCount → y2 < y → g2.slot x y2 = g.slot x y2)
      ∧ (∀ x y2 : Nat, x < g.columnCount → y ≤ y2 → y2 < g.rowCount - 1 →
          g2.slot x y2 = g.slot x (y2 + 1)) := by
  have hlen_take : (g.children.take (y * g.columnCount)).length = y * g.columnCount := by
    rw [List.length_take, hinv]
    exact Nat.min_eq_left (Nat.mul_le_mul_right _ (Nat.le_of_lt hy))
  refine
    ⟨{ g with
        rowCount := g.rowCount - 1
        children := g.children.take (y * g.columnCount)
          ++ g.children.drop ((y + 1) * g.columnCount) },
      ?_, rfl, rfl, ?_, ?_⟩
  · unfold Grid.removeRow
    rw [if_pos hy]
  · intro x y2 hx hy2
    have h2 : y2 * g.columnCount + x < y * g.columnCount := slot_index_lt hx hy2
    have h1 : y2 * g.columnCount + x < (g.children.take (y * g.columnCount)).length := by
      rw [hlen_take]; exact h2
    simp only [Grid.slot, List.getD_eq_getElem?_getD]
    rw [List.getElem?_append_left h1, List.getElem?_take_of_lt h2]
  · intro x y2 hx hy2 hy2top
    have hge : (g.children.take (y * g.columnCount)).length ≤ y2 * g.columnCount + x := by
      rw [hlen_take]
      exact Nat.le_trans (Nat.mul_le_mul_right _ hy2) (Nat.le_add_right _ _)
    simp only [Grid.slot, List.getD_eq_getElem?_getD]
    rw [List.getElem?_append_right hge, List.getElem?_drop, hlen_take]
    have heq : (y + 1) * g.columnCount + (y2 * g.columnCount + x - y * g.columnCount)
        = (y2 + 1) * g.columnCount + x := by
      have ha : y * g.columnCount ≤ y2 * g.columnCount := Nat.mul_le_mul_right _ hy2
      rw [Nat.succ_mul y, Nat.succ_mul y2]
      revert ha
      generalize y * g.columnCount = a
      generalize y2 * g.columnCount = b
      intro ha
      omega
    rw [heq]

/-- A concrete 3-row × 1-column grid holding three elements. -/
def grid31 : Grid :=
  { rowCount := 3, columnCount := 1,
    children := [some ⟨1, 10⟩, some ⟨2, 20⟩, some ⟨3, 30⟩] }

/-- C3 witness: removing the middle row of a concrete 3 × 1 grid. -/
theorem removeRow_spec_witness :
    ∃ g2 : Grid,
      grid31.removeRow 1 = Except.ok g2
      ∧ g2.rowCount = grid31.rowCount - 1
      ∧ g2.columnCount = grid31.columnCount
      ∧ (∀ x y2 : Nat, x < grid31.columnCount → y2 < 1 → g2.slot x y2 = grid31.slot x y2)
      ∧ (∀ x y2 : Nat, x < grid31.columnCount → 1 ≤ y2 → y2 < grid31.rowCount - 1 →
          g2.slot x y2 = grid31.slot x (y2 + 1)) :=
  removeRow_spec grid31 1 (by decide) (by decide)

/-- C5 witness: insert-at-count equals append on a concrete 2 × 2 grid. -/
theorem insert_at_count_eq_append_witness :
    grid22.insertRow grid22.rowCount = Except.ok grid22.appendRow
    ∧ grid22.insertColumn grid22.columnCount = Except.ok grid22.appendColumn :=
  insert_at_count_eq_append grid22 (by decide)

/-- Element A of the spec §8 `insertColumn` scenario. -/
def elemA : Elem := ⟨1, 10⟩

/-- Element B of the spec §8 `insertColumn` scenario. -/
def elemB : Elem := ⟨2, 20⟩

/-- The spec §8 `insertColumn` scenario, run through the public API:
start from the 2 × 2 grid, insert A at (0,0) and B at (1,1), then insert a
column at index 1. -/
def c6run : Except GridError Grid :=
  (grid22.insert (some elemA) 0 0).bind (fun p1 =>
    (p1.1.insert (some elemB) 1 1).bind (fun p2 =>
      p2.1.insertColumn 1))

/-- C6: in the 2 × 2 grid with A at (0,0) and B at (1,1), `insertColumn 1`
yields a 3-column × 2-row grid with A still at (0,0), an empty slot at
(1,0), and B shifted to (2,1). -/
theorem insertColumn_scenario :
    ∃ g : Grid, c6run = Except.ok g
      ∧ g.columnCount = 3 ∧ g.rowCount = 2
      ∧ g.get 0 0 = Except.ok (some elemA)
      ∧ g.get 1 0 = Except.ok none
      ∧ g.get 2 1 = Except.ok (some elemB) :=
  ⟨_, rfl, rfl, rfl, rfl, rfl, rfl⟩

/-- C7: when `fresh` is above every element identity of `g` (the fresh
heap addresses of the new allocations), `clone` yields a grid with the
same shape and alignment settings whose every slot holds, at the same
coordinate, an element with the same content as the original's (in
particular the same occupancy), and no cloned element shares an identity
with any element still owned by the original — so mutating a clone child
cannot affect an original child. -/
theorem clone_spec (g : Grid) (fresh : Nat)
    (hfresh : ∀ o ∈ g.children, ∀ e : Elem, o = some e → e.id < fresh) :
    (g.clone fresh).rowCount = g.rowCount
    ∧ (g.clone fresh).columnCount = g.columnCount
    ∧ (g.clone fresh).horAlign = g.horAlign
    ∧ (g.clone fresh).verAlign = g.verAlign
    ∧ (∀ x y : Nat,
        ((g.clone fresh).slot x y).map Elem.val = (g.slot x y).map Elem.val)
    ∧ (∀ x y x2 y2 : Nat, ∀ e e2 : Elem,
        (g.clone fresh).slot x y = some e → g.slot x2 y2 = some e2 →
          e.id ≠ e2.id) := by
  refine ⟨rfl, rfl, rfl, rfl, ?_, ?_⟩
  · intro x y
    by_cases hidx : y * g.columnCount + x < g.children.length
    · simp only [Grid.slot, Grid.clone, List.getD_eq_getElem?_getD,
        List.getElem?_map, List.getElem?_range hidx, Option.map_some',
        Option.getD_some, Option.map_map]
      rfl
    · have hnone1 : (g.clone fresh).slot x y = none := by
        simp only [Grid.slot, Grid.clone, List.getD_eq_getElem?_getD]
        rw [List.getElem?_eq_none]
        · rfl
        · simp only [List.length_map, List.length_range]
          omega
      have hnone2 : g.slot x y = none := by
        simp only [Grid.slot, List.getD_eq_getElem?_getD]
        rw [List.getElem?_eq_none (by omega)]
        rfl
      rw [hnone1, hnone2]
  · intro x y x2 y2 e e2 hce hge
    have hmem : some e2 ∈ g.children := by
      simp only [Grid.slot, List.getD_eq_getElem?_getD] at hge
      cases hg2 : g.children[y2 * g.columnCount + x2]? with
      | none => rw [hg2] at hge; simp at hge
      | some o =>
        rw [hg2] at hge
        simp only [Option.getD_some] at hge
        rw [hge] at hg2
        exact List.getElem?_mem hg2
    have hlt : e2.id < fresh := hfresh _ hmem e2 rfl
    have hge_id : fresh ≤ e.id := by
      by_cases hidx : y * g.columnCount + x < g.children.length
      · have hsome : ((g.children.getD (y * g.columnCount + x) none).map
            (fun e0 => (⟨fresh + (y * g.columnCount + x), e0.val⟩ : Elem)))
            = some e := by
          simpa [Grid.slot, Grid.clone, List.getElem?_map,
            List.getElem?_range hidx] using hce
        rcases Option.map_eq_some'.mp hsome with ⟨e0, _, heq⟩
        rw [← heq]
        exact Nat.le_add_right _ _
      · have hnone1 : (g.clone fresh).slot x y = none := by
          simp only [Grid.slot, Grid.clone, List.getD_eq_getElem?_getD]
          rw [List.getElem?_eq_none]
          · rfl
          · simp only [List.length_map, List.length_range]
            omega
        rw [hnone1] at hce
        cases hce
    omega

/-- C7 witness: cloning a concrete 3 × 1 grid whose element identities are
all below 10, with fresh identities starting at 10. -/
theorem clone_spec_witness :
    (grid31.clone 10).rowCount = grid31.rowCount
    ∧ (grid31.clone 10).columnCount = grid31.columnCount
    ∧ (grid31.clone 10).horAlign = grid31.horAlign
    ∧ (grid31.clone 10).verAlign = grid31.verAlign
    ∧ (∀ x y : Nat,
        ((grid31.clone 10).slot x y).map Elem.val = (grid31.slot x y).map Elem.val)
    ∧ (∀ x y x2 y2 : Nat, ∀ e e2 : Elem,
        (grid31.clone 10).slot x y = some e → grid31.slot x2 y2 = some e2 →
          e.id ≠ e2.id) :=
  clone_spec grid31 10 (by decide)

end Floah
